import Mathlib

/-!
Verification of the BMAD beads core: the document store (`store.js`), the
advisory file lock (`lock.js`), the land protocol (`beads/land` in the CLI
library), and the worker relay daemon (`worker-daemon.js`), shallowly
embedded as pure Lean functions.  Timestamps are modelled as natural-number
milliseconds, the single lock file and the single store file as explicit
state values, and the asynchronous JS functions as state-passing functions
(the code under study is sequential: each operation runs to completion
before the next starts).
-/

namespace Beads

/-- JSON-compatible values, the store's value universe.  Numbers are
modelled as integers (the repository only ever stores integer-free or
integer-valued numbers; fractional literals are outside the model and the
model parser rejects them). -/
inductive Json where
  | null : Json
  | bool (b : Bool) : Json
  | num (n : Int) : Json
  | str (s : String) : Json
  | arr (elems : List Json) : Json
  | obj (fields : List (String × Json)) : Json
deriving Repr

/-- JSON whitespace, as accepted by `JSON.parse`. -/
def isJsonWs (c : Char) : Bool :=
  c = ' ' || c = '\n' || c = '\t' || c = '\r'

/-- Drop leading JSON whitespace. -/
def skipWs : List Char → List Char
  | [] => []
  | c :: cs => if isJsonWs c then skipWs cs else c :: cs

/-- Parse the remainder of a JSON string literal (the opening quote already
consumed), handling the basic escapes.  Returns the decoded characters and
the input after the closing quote. -/
def parseStrChars : List Char → Option (List Char × List Char)
  | [] => none
  | '\\' :: e :: rest => do
    let c ← match e with
      | '\"' => some '\"'
      | '\\' => some '\\'
      | '/' => some '/'
      | 'n' => some '\n'
      | 't' => some '\t'
      | 'r' => some '\r'
      | _ => none
    let (s, r) ← parseStrChars rest
    some (c :: s, r)
  | c :: rest =>
    if c = '\"' then some ([], rest)
    else do
      let (s, r) ← parseStrChars rest
      some (c :: s, r)

/-- Leading decimal digits of the input, and the rest. -/
def takeDigits : List Char → (List Char × List Char)
  | [] => ([], [])
  | c :: cs =>
    if c.isDigit then
      let (ds, rest) := takeDigits cs
      (c :: ds, rest)
    else ([], c :: cs)

/-- Decimal digits to a natural number. -/
def digitsToNat (ds : List Char) : Nat :=
  ds.foldl (fun acc c => acc * 10 + (c.toNat - '0'.toNat)) 0

mutual

/-- Fuel-indexed recursive-descent parser for one JSON value; models the
platform `JSON.parse` (restricted to integer numerals and the basic string
escapes). -/
def parseVal : Nat → List Char → Option (Json × List Char)
  | 0, _ => none
  | fuel + 1, cs =>
    match skipWs cs with
    | 'n' :: 'u' :: 'l' :: 'l' :: rest => some (.null, rest)
    | 't' :: 'r' :: 'u' :: 'e' :: rest => some (.bool true, rest)
    | 'f' :: 'a' :: 'l' :: 's' :: 'e' :: rest => some (.bool false, rest)
    | '\"' :: rest =>
      match parseStrChars rest with
      | some (s, r) => some (.str (String.mk s), r)
      | none => none
    | '[' :: rest =>
      (match skipWs rest with
       | ']' :: r => some (.arr [], r)
       | other => (parseArrItems fuel other).map (fun (xs, r) => (.arr xs, r)))
    | '\x7b' :: rest =>
      (match skipWs rest with
       | '\x7d' :: r => some (.obj [], r)
       | other => (parseObjItems fuel other).map (fun (xs, r) => (.obj xs, r)))
    | '-' :: rest =>
      (match takeDigits rest with
       | ([], _) => none
       | (ds, r) => some (.num (-(digitsToNat ds : Int)), r))
    | c :: rest =>
      if c.isDigit then
        let (ds, r) := takeDigits (c :: rest)
        some (.num (digitsToNat ds : Int), r)
      else none
    | [] => none

/-- Comma-separated JSON array items up to the closing bracket. -/
def parseArrItems : Nat → List Char → Option (List Json × List Char)
  | 0, _ => none
  | fuel + 1, cs => do
    let (v, rest) ← parseVal fuel cs
    match skipWs rest with
    | ',' :: r => (parseArrItems fuel r).map (fun (xs, r2) => (v :: xs, r2))
    | ']' :: r => some ([v], r)
    | _ => none

/-- Comma-separated `"key": value` JSON object members up to the closing
brace. -/
def parseObjItems : Nat → List Char → Option (List (String × Json) × List Char)
  | 0, _ => none
  | fuel + 1, cs =>
    match skipWs cs with
    | '\"' :: rest => do
      let (k, afterKey) ← parseStrChars rest
      match skipWs afterKey with
      | ':' :: afterColon => do
        let (v, rest2) ← parseVal fuel afterColon
        match skipWs rest2 with
        | ',' :: r =>
          (parseObjItems fuel r).map (fun (xs, r2) => ((String.mk k, v) :: xs, r2))
        | '\x7d' :: r => some ([(String.mk k, v)], r)
        | _ => none
      | _ => none
    | _ => none

end

/-- Model of the platform `JSON.parse`: `some` of the decoded value when the
whole input is one JSON value, `none` when parsing throws. -/
def Json.parse? (s : String) : Option Json :=
  match parseVal (2 * s.length + 2) s.data with
  | some (j, rest) => if skipWs rest = [] then some j else none
  | none => none

/-! ## Document store (`src/tools/cli/lib/beads/store.js`)

JS objects are modelled as association lists in insertion order with unique
keys; property read is `assocGet`, property write updates an existing
binding in place or appends a new one at the end, exactly the JS property
order semantics.  ISO-8601 timestamp strings are modelled as natural-number
milliseconds.  `writeJsonAtomic` followed by `JSON.parse` on re-read is the
identity on well-formed documents, so the read-modify-write cycle of each
operation is modelled as a pure function on the in-memory document. -/

/-- JS property read on an object modelled as an assoc list. -/
def assocGet (m : List (String × α)) (k : String) : Option α :=
  match m with
  | [] => none
  | (k', v) :: rest => if k' = k then some v else assocGet rest k

/-- JS property write on an object modelled as an assoc list: update the
existing binding in place, else append a new binding at the end. -/
def assocSet (m : List (String × α)) (k : String) (v : α) : List (String × α) :=
  match m with
  | [] => [(k, v)]
  | (k', v') :: rest => if k' = k then (k, v) :: rest else (k', v') :: assocSet rest k v

/-- Journal operation kinds (`op ∈ {set, append}`). -/
inductive Op where
  | set : Op
  | append : Op
deriving Repr, DecidableEq

/-- One journal entry: `{ts, op, namespace, key, meta}` (the `namespace`
field is named `ns` because `namespace` is a Lean keyword). -/
structure JournalEntry where
  ts : Nat
  op : Op
  ns : String
  key : String
  meta : Json
deriving Repr

/-- The store's document: `{version, createdAt, updatedAt, namespaces,
journal}`. -/
structure Db where
  version : Nat
  createdAt : Nat
  updatedAt : Nat
  namespaces : List (String × List (String × Json))
  journal : List JournalEntry
deriving Repr

/-- `createEmptyDb` from `store.js` (`CURRENT_SCHEMA_VERSION = 1`). -/
def createEmptyDb (now : Nat) : Db :=
  { version := 1, createdAt := now, updatedAt := now, namespaces := [], journal := [] }

/-- `isPlainObject` from `store.js`: a non-null, non-array object. -/
def isPlainObject : Json → Bool
  | .obj _ => true
  | _ => false

/-- The `isPlainObject(meta) ? meta : {}` coercion applied to every stored
`meta`. -/
def normMeta (meta : Json) : Json :=
  if isPlainObject meta then meta else .obj []

/-- `normalizeDbShape` from `store.js`, on the in-memory documents of this
model.  The source coerces malformed fields (non-object document,
non-number version, non-string timestamps, non-object `namespaces`,
non-object namespace values, non-array journal) to defaults; a well-typed
`Db` passes every check, so each branch keeps the existing field and the
function rebuilds the document unchanged. -/
def normalizeDbShape (db : Db) : Db :=
  { version := db.version, createdAt := db.createdAt, updatedAt := db.updatedAt,
    namespaces := db.namespaces, journal := db.journal }

/-- Whitespace removed by JS `String.prototype.trim` (the ASCII part; the
repository's keys and values are ASCII). -/
def isJsTrimWs (c : Char) : Bool :=
  c = ' ' || c = '\t' || c = '\n' || c = '\r' || c = '\x0b' || c = '\x0c'

/-- JS `value.trim()`: strip leading and trailing whitespace. -/
def strTrim (s : String) : String :=
  String.mk (((s.data.dropWhile isJsTrimWs).reverse.dropWhile isJsTrimWs).reverse)

/-- `tryParseJson` from `store.js`: non-strings pass through; a string is
trimmed, an empty trim yields the empty string, otherwise the trimmed text
is JSON-parsed with the raw string as fallback. -/
def tryParseJson (value : Json) : Json :=
  match value with
  | .str s =>
    let trimmed := strTrim s
    if trimmed = "" then .str ""
    else
      match Json.parse? trimmed with
      | some j => j
      | none => .str s
  | v => v

/-- `BeadsStore.get`: the stored value, or the `null` sentinel when the
namespace or key is absent. -/
def BeadsStore.get (db : Db) (ns k : String) : Json :=
  match assocGet ((assocGet db.namespaces ns).getD []) k with
  | some v => v
  | none => Json.null

/-- `BeadsStore.set`: decode the value with `tryParseJson`, create the
namespace if absent, store, append a `set` journal entry, stamp `updatedAt`
(done by `write`), and return the stored value. -/
def BeadsStore.set (db : Db) (ns k : String) (value meta : Json) (now : Nat) :
    Db × Json :=
  let nsMap := (assocGet db.namespaces ns).getD []
  let parsed := tryParseJson value
  let db' : Db :=
    { db with
      namespaces := assocSet db.namespaces ns (assocSet nsMap k parsed),
      journal := db.journal ++ [⟨now, .set, ns, k, normMeta meta⟩],
      updatedAt := now }
  (db', parsed)

/-- `BeadsStore.append`: decode the value, replace a non-array existing
value with `[]`, push a `{ts, value, meta}` record, append an `append`
journal entry, stamp `updatedAt`, and return the stored array. -/
def BeadsStore.append (db : Db) (ns k : String) (value meta : Json) (now : Nat) :
    Db × Json :=
  let nsMap := (assocGet db.namespaces ns).getD []
  let parsed := tryParseJson value
  let base : List Json :=
    match assocGet nsMap k with
    | some (.arr xs) => xs
    | _ => []
  let entry : Json := .obj [("ts", .num now), ("value", parsed), ("meta", normMeta meta)]
  let newArr := base ++ [entry]
  let db' : Db :=
    { db with
      namespaces := assocSet db.namespaces ns (assocSet nsMap k (.arr newArr)),
      journal := db.journal ++ [⟨now, .append, ns, k, normMeta meta⟩],
      updatedAt := now }
  (db', .arr newArr)

/-- JS `arr.slice(-n)` for a natural `n`: `-0` normalizes to `0`, so `n = 0`
returns the whole array; `n ≥ 1` keeps the last `min n (length)` elements. -/
def sliceNeg (l : List α) (n : Nat) : List α :=
  if n = 0 then l else l.drop (l.length - n)

/-- `BeadsStore.compact`: truncate the journal to the most recent
`maxJournalEntries` entries when it is longer (via `slice(-N)`),
re-normalize, stamp `updatedAt`, and persist. -/
def BeadsStore.compact (db : Db) (maxJournalEntries now : Nat) : Db :=
  let j :=
    if db.journal.length > maxJournalEntries then sliceNeg db.journal maxJournalEntries
    else db.journal
  let normalized := normalizeDbShape { db with journal := j }
  { normalized with updatedAt := now }

/-- A one-entry document used as the concrete input of several checks. -/
def dbOneEntry : Db :=
  { version := 1, createdAt := 0, updatedAt := 0, namespaces := [],
    journal := [⟨0, .set, "a", "b", .obj []⟩] }

/-! ## Advisory lock (`src/tools/cli/lib/beads/lock.js`)

The lock file is modelled as an explicit state value: absent, present but
unparseable, or present with a parsed record.  ISO timestamps are
natural-number milliseconds; a record whose `expiresAt` is missing or does
not `Date.parse` is modelled with `expiresAtMs = none` (both make
`Number.isNaN(existingExpires)` true).  A missing, `null`, or empty-string
`owner` field is modelled as `""` — all three are falsy in JS and the code
only tests the owner for truthiness and strict string equality. -/

/-- A parsed lock record `{name, owner, createdAt, expiresAt, ttlMs}`. -/
structure LockRecord where
  name : String
  owner : String
  createdAtMs : Nat
  expiresAtMs : Option Nat
  ttlMs : Nat
deriving Repr, DecidableEq

/-- The lock file's state. -/
inductive LockFile where
  | absent : LockFile
  | corrupt : LockFile
  | record (r : LockRecord) : LockFile
deriving Repr, DecidableEq

/-- `createOwnerId`: `pid-timestamp-randomBits`.  The `Math.random()` hex
tail is modelled as a natural number rendered in decimal; the contract is
only that the identifier is freshly generated per acquisition attempt. -/
def createOwnerId (pid nowMs rand : Nat) : String :=
  toString pid ++ "-" ++ toString nowMs ++ "-" ++ toString rand

/-- What `readLock` hands back: `null` when the file is missing,
`{corrupted: true}` when it does not parse, else the parsed record. -/
inductive ReadLockResult where
  | noFile : ReadLockResult
  | corrupted : ReadLockResult
  | record (r : LockRecord) : ReadLockResult
deriving Repr, DecidableEq

/-- `readLock` from `lock.js`. -/
def readLock : LockFile → ReadLockResult
  | .absent => .noFile
  | .corrupt => .corrupted
  | .record r => .record r

/-- The caller-visible outcome of `acquireLock`: the returned
`{owner, lockPath, name, expiresAt}` object, or the rethrown filesystem
error from the failed `open(lockPath, 'wx')` (whose fields — `code`,
`path` — come from the failed syscall, not from the lock record). -/
inductive AcquireResult where
  | acquired (owner lockPath name : String) (expiresAtMs : Nat) : AcquireResult
  | fsError (code path : String) : AcquireResult
deriving Repr, DecidableEq

/-- The owner identifier an `acquireLock` caller receives in the result:
present only on success. -/
def AcquireResult.reportedOwner : AcquireResult → Option String
  | .acquired o _ _ _ => some o
  | .fsError _ _ => none

/-- `needle` occurs as a contiguous substring of `hay`. -/
def strContainsSub (hay needle : String) : Bool :=
  (List.range (hay.length + 1)).any (fun i => needle.data.isPrefixOf (hay.data.drop i))

/-- `acquireLock` from `lock.js`.  The first `open('wx')` succeeds exactly
when the file is absent.  On `EEXIST`, the existing record is read: a
corrupted file, or a parsed record whose `expiresAt` parses and is strictly
in the past, is stale — it is removed and the create retried once;
otherwise the original filesystem error is rethrown. -/
def acquireLock (st : LockFile) (lockPath name : String) (ttlMs pid nowMs rand : Nat) :
    AcquireResult × LockFile :=
  let owner := createOwnerId pid nowMs rand
  let expiresAtMs := nowMs + ttlMs
  let payload : LockRecord :=
    { name := name, owner := owner, createdAtMs := nowMs,
      expiresAtMs := some expiresAtMs, ttlMs := ttlMs }
  let ok : AcquireResult × LockFile :=
    (.acquired owner lockPath name expiresAtMs, .record payload)
  match st with
  | .absent => ok
  | .corrupt => ok
  | .record r =>
    match r.expiresAtMs with
    | some e => if e < nowMs then ok else (.fsError "EEXIST" lockPath, st)
    | none => (.fsError "EEXIST" lockPath, st)

/-- The caller-visible outcome of `releaseLock`. -/
inductive ReleaseResult where
  | released : ReleaseResult
  | notReleasedMissing : ReleaseResult
  | notReleasedOwnerMismatch (currentOwner : String) : ReleaseResult
deriving Repr, DecidableEq

/-- The `released` field of the result object. -/
def ReleaseResult.isReleased : ReleaseResult → Bool
  | .released => true
  | _ => false

/-- `releaseLock` from `lock.js`: soft-fails on a missing file; refuses
only when not forced and both the recorded owner and the caller's owner
are non-empty (truthy) and differ; otherwise removes the file. -/
def releaseLock (st : LockFile) (owner : String) (force : Bool) :
    ReleaseResult × LockFile :=
  match st with
  | .absent => (.notReleasedMissing, .absent)
  | .corrupt => (.released, .absent)
  | .record r =>
    if force = false ∧ r.owner ≠ "" ∧ owner ≠ "" ∧ r.owner ≠ owner then
      (.notReleasedOwnerMismatch r.owner, .record r)
    else (.released, .absent)

/-! ## Land protocol (`landThePlane`, in the beads CLI library)

`landThePlane` constructs a store on `dbPath`, acquires the lock, and in a
`try`/`finally` runs `store.init()` and `store.compact({maxJournalEntries:
5000})`, releasing the lock with the acquired owner and `force: false` in
the `finally` block.  The store's backing file is modelled as a state
value; the reachable failure of `init`/`compact` in the model is the
missing-path `ConfigError` (`'Beads DB path is not set'`). -/

/-- The store's backing file. -/
inductive DbFile where
  | absent : DbFile
  | corrupt : DbFile
  | valid (db : Db) : DbFile
deriving Repr

/-- Store-level exceptions reachable in the model. -/
inductive StoreError where
  | configError : StoreError
  | parseError : StoreError
deriving Repr, DecidableEq

/-- `BeadsStore.init`: throws `ConfigError` without a path; a parseable
file is left alone (`created: false`); a corrupt file is copied to a
timestamped backup and a fresh empty document written; an absent file gets
a fresh empty document. -/
def storeInit (dbPath : String) (file : DbFile) (now : Nat) : Except StoreError DbFile :=
  if dbPath = "" then .error .configError
  else
    match file with
    | .valid db => .ok (.valid db)
    | .corrupt => .ok (.valid (createEmptyDb now))
    | .absent => .ok (.valid (createEmptyDb now))

/-- `BeadsStore.read`: auto-initializes an absent file, then parses and
normalizes; a corrupt file makes `JSON.parse` throw. -/
def storeRead (dbPath : String) (file : DbFile) (now : Nat) :
    Except StoreError (Db × DbFile) :=
  if dbPath = "" then .error .configError
  else
    match file with
    | .valid db => .ok (db, .valid db)
    | .corrupt => .error .parseError
    | .absent => .ok (createEmptyDb now, .valid (createEmptyDb now))

/-- `BeadsStore.compact` at the file level: read, truncate the journal,
normalize, stamp, persist atomically. -/
def storeCompact (dbPath : String) (file : DbFile) (maxJournalEntries now : Nat) :
    Except StoreError (Db × DbFile) := do
  let (db, _) ← storeRead dbPath file now
  let db' := BeadsStore.compact db maxJournalEntries now
  .ok (db', .valid db')

/-- Combined lock-file + store-file state threaded through `landThePlane`. -/
structure SysState where
  lockFile : LockFile
  dbFile : DbFile

/-- The caller-visible outcome of `landThePlane`. -/
inductive LandOutcome where
  | ok (lockOwner : String) (db : Db) : LandOutcome
  | initOrCompactFailed (e : StoreError) : LandOutcome
  | lockFailed (code path : String) : LandOutcome
deriving Repr

/-- The lock-related calls an execution of `landThePlane` performs, in
order. -/
inductive LockEvent where
  | acquiredEvent (owner : String) : LockEvent
  | releaseCalled (lockPath owner : String) (force : Bool) : LockEvent
deriving Repr, DecidableEq

/-- `landThePlane` from the beads CLI library: acquire the lock; in a
`try` block run `init` then `compact(5000)`; in the `finally` block — run
on both the normal and the throwing path — call `releaseLock` with the
acquired owner and `force: false`. -/
def landThePlane (dbPath lockPath lockName : String) (ttlMs pid nowMs rand : Nat)
    (sys : SysState) : LandOutcome × SysState × List LockEvent :=
  match acquireLock sys.lockFile lockPath lockName ttlMs pid nowMs rand with
  | (.fsError c p, lf) => (.lockFailed c p, { sys with lockFile := lf }, [])
  | (.acquired owner _ _ _, lf) =>
    let tryResult : Except StoreError (Db × DbFile) := do
      let f1 ← storeInit dbPath sys.dbFile nowMs
      storeCompact dbPath f1 5000 nowMs
    let lockAfter := (releaseLock lf owner false).2
    let events := [LockEvent.acquiredEvent owner,
                   LockEvent.releaseCalled lockPath owner false]
    let od : LandOutcome × DbFile :=
      match tryResult with
      | .ok (db, dbf) => (.ok owner db, dbf)
      | .error e => (.initOrCompactFailed e, sys.dbFile)
    (od.1, ⟨lockAfter, od.2⟩, events)

/-! ## Worker relay daemon (`worker-daemon.js`)

The per-message handling of the worker loop (the body of the
`for (const msg of msgs)` loop) is modelled as a pure function from the
daemon identity, the inbound message, and the Runner outcome to the list
of `send_message` calls it issues.  A missing, `null`, or empty-string job
field is modelled as `""`: the code only tests these fields for JS
truthiness and for strict equality against the daemon's (non-empty) role
and agent name, and `""`, `null`, and `undefined` are all falsy.  The
best-effort `acknowledge_message` call and the prompt-file write are not
`send_message` calls and are outside the model. -/

/-- A job descriptor as decoded from the fenced JSON block of a message
body. -/
structure Job where
  issue_id : String
  step : String
  thread_id : String
  to_role : String
  to_agent_name : String
  next_step : String
  next_role : String
  next_agent_name : String
  next_next_step : String
  next_next_role : String
  next_next_agent_name : String
  done_to_role : String
  done_to_agent_name : String
deriving Repr, DecidableEq

/-- The body of an outbound `send_message` call: a next-hop job rendered
as a fenced JSON block (from which `parseJobFromBody` recovers exactly the
job object), or a Done notice listing step, issue, sending role, the
runner's exit code, and the prompt file if one was produced. -/
inductive OutBody where
  | jobBody (j : Job) : OutBody
  | doneBody (step issue_id fromRole : String) (runnerExitCode : Int)
      (promptFile : Option String) : OutBody
deriving Repr, DecidableEq

/-- One outbound `send_message` call. -/
structure OutMessage where
  recipients : List String   -- the `to` argument of send_message (`to` is a token in Lean)
  subject : String
  body : OutBody
  thread_id : String
deriving Repr, DecidableEq

/-- The outcome of `runAgentJob`: a resolved `{exitCode, promptFile}`, or
a throw (missing/invalid runner configuration), after which the `catch`
sets `exitCode = 1` and leaves `promptFile = null`. -/
inductive RunnerOutcome where
  | exit (code : Int) (promptFile : String) : RunnerOutcome
  | thrown : RunnerOutcome
deriving Repr, DecidableEq

/-- The exit code the handler continues with. -/
def runnerExitCode : RunnerOutcome → Int
  | .exit c _ => c
  | .thrown => 1

/-- The prompt file the handler continues with. -/
def runnerPromptFile : RunnerOutcome → Option String
  | .exit _ p => some p
  | .thrown => none

/-- An inbound mailbox message: its subject, and the job decoded from its
body by `parseJobFromBody` when one is present (`msg.id` and
`msg.created_ts` only drive the best-effort ack and the poll watermark,
neither of which affects which messages are sent). -/
structure InMessage where
  subject : String
  jobInBody : Option Job
deriving Repr, DecidableEq

/-- `msg.subject.startsWith('BMAD JOB:')`, at the character-list level. -/
def subjectMarksJob (subject : String) : Bool :=
  "BMAD JOB:".data.isPrefixOf subject.data

/-- The per-message handling of the worker loop: skip unless the subject
marks a job and the decoded job targets this role (and, when present,
this agent name); then run the job and either send the next-hop Job (when
`next_role`, `next_step`, and `next_agent_name` are all truthy), else the
Done notice (when `done_to_agent_name` is truthy), else nothing. -/
def handleMessage (role agentName : String) (msg : InMessage)
    (outcome : RunnerOutcome) : List OutMessage :=
  if subjectMarksJob msg.subject = false then []
  else
    match msg.jobInBody with
    | none => []
    | some job =>
      if job.to_role ≠ role then []
      else if job.to_agent_name ≠ "" ∧ job.to_agent_name ≠ agentName then []
      else
        let issueId := job.issue_id
        let threadId := if job.thread_id ≠ "" then job.thread_id else issueId
        if job.next_role ≠ "" ∧ job.next_step ≠ "" ∧ job.next_agent_name ≠ "" then
          let nextJob : Job :=
            { issue_id := issueId,
              step := job.next_step,
              thread_id := threadId,
              to_role := job.next_role,
              to_agent_name := job.next_agent_name,
              next_step := job.next_next_step,
              next_role := job.next_next_role,
              next_agent_name := job.next_next_agent_name,
              next_next_step := "", next_next_role := "", next_next_agent_name := "",
              done_to_role := job.done_to_role,
              done_to_agent_name := job.done_to_agent_name }
          [{ recipients := [job.next_agent_name],
             subject := "BMAD JOB: " ++ job.next_step ++ " " ++ issueId,
             body := .jobBody nextJob,
             thread_id := threadId }]
        else if job.done_to_agent_name ≠ "" then
          [{ recipients := [job.done_to_agent_name],
             subject := "BMAD DONE: " ++ job.step ++ " " ++ issueId,
             body := .doneBody job.step issueId role (runnerExitCode outcome)
               (runnerPromptFile outcome),
             thread_id := threadId }]
        else []

/-! ## Concrete fixtures used by the closed checks -/

/-- A job descriptor with every field absent. -/
def Job.blank : Job :=
  { issue_id := "", step := "", thread_id := "", to_role := "", to_agent_name := "",
    next_step := "", next_role := "", next_agent_name := "",
    next_next_step := "", next_next_role := "", next_next_agent_name := "",
    done_to_role := "", done_to_agent_name := "" }

/-- Inbound job naming a next hop (`dev1` / `dev-story`) with a next agent
name. -/
def jobHop : Job :=
  { Job.blank with
    issue_id := "bd-1", step := "validate-create-story", to_role := "validator",
    next_step := "dev-story", next_role := "dev1", next_agent_name := "dev1-agent",
    done_to_role := "sm1", done_to_agent_name := "sm1-agent" }

/-- The same inbound job but with `next_agent_name` absent and no
completion target. -/
def jobHopNoAgent : Job :=
  { Job.blank with
    issue_id := "bd-1", step := "validate-create-story", to_role := "validator",
    next_step := "dev-story", next_role := "dev1" }

/-- A last-stage job: no next hop, only a completion target. -/
def jobDone : Job :=
  { Job.blank with
    issue_id := "bd-1", step := "code-review", to_role := "reviewer",
    done_to_role := "sm1", done_to_agent_name := "sm1-agent" }

/-- Mailbox message carrying `jobHop`. -/
def msgHop : InMessage :=
  { subject := "BMAD JOB: validate-create-story bd-1", jobInBody := some jobHop }

/-- Mailbox message carrying `jobHopNoAgent`. -/
def msgHopNoAgent : InMessage :=
  { subject := "BMAD JOB: validate-create-story bd-1", jobInBody := some jobHopNoAgent }

/-- Mailbox message carrying `jobDone`. -/
def msgDone : InMessage :=
  { subject := "BMAD JOB: code-review bd-1", jobInBody := some jobDone }

/-- A concrete stale lock record (expired at 10 ms). -/
def staleRecord : LockRecord :=
  { name := "plane", owner := "old-owner", createdAtMs := 0,
    expiresAtMs := some 10, ttlMs := 10 }

/-! ## Helper lemmas -/

theorem assocGet_assocSet_self (m : List (String × α)) (k : String) (v : α) :
    assocGet (assocSet m k v) k = some v := by
  induction m with
  | nil => simp [assocSet, assocGet]
  | cons hd tl ih =>
    obtain ⟨k', v'⟩ := hd
    by_cases h : k' = k <;> simp [assocSet, assocGet, h, ih]

theorem compact_namespaces (db : Db) (N now : Nat) :
    (BeadsStore.compact db N now).namespaces = db.namespaces := rfl

theorem compact_journal_def (db : Db) (N now : Nat) :
    (BeadsStore.compact db N now).journal =
      if db.journal.length > N then sliceNeg db.journal N else db.journal := rfl

theorem compact_journal_drop (db : Db) (N now : Nat) (hN : 1 ≤ N) :
    (BeadsStore.compact db N now).journal = db.journal.drop (db.journal.length - N) := by
  rw [compact_journal_def]
  by_cases hlen : db.journal.length > N
  · rw [if_pos hlen]
    unfold sliceNeg
    rw [if_neg (by omega : N ≠ 0)]
  · rw [if_neg hlen]
    have h0 : db.journal.length - N = 0 := by omega
    rw [h0, List.drop_zero]

theorem compact_journal_length_le (db : Db) (N now : Nat) (hN : 1 ≤ N) :
    (BeadsStore.compact db N now).journal.length ≤ N := by
  rw [compact_journal_drop db N now hN, List.length_drop]
  omega

theorem acquireLock_cases (st : LockFile) (lockPath name : String)
    (ttlMs pid nowMs rand : Nat) :
    acquireLock st lockPath name ttlMs pid nowMs rand
        = (.acquired (createOwnerId pid nowMs rand) lockPath name (nowMs + ttlMs),
           .record ⟨name, createOwnerId pid nowMs rand, nowMs, some (nowMs + ttlMs), ttlMs⟩)
      ∨ acquireLock st lockPath name ttlMs pid nowMs rand
        = (.fsError "EEXIST" lockPath, st) := by
  cases st with
  | absent => exact Or.inl rfl
  | corrupt => exact Or.inl rfl
  | record r =>
    cases hre : r.expiresAtMs with
    | none => exact Or.inr (by simp [acquireLock, hre])
    | some e =>
      by_cases hlt : e < nowMs
      · exact Or.inl (by simp [acquireLock, hre, hlt])
      · exact Or.inr (by simp [acquireLock, hre, hlt])

theorem releaseLock_matching_owner (r : LockRecord) (owner : String)
    (h : r.owner = owner) :
    releaseLock (.record r) owner false = (.released, .absent) := by
  have hdef : releaseLock (.record r) owner false
      = if false = false ∧ r.owner ≠ "" ∧ owner ≠ "" ∧ r.owner ≠ owner then
          (.notReleasedOwnerMismatch r.owner, .record r)
        else (.released, .absent) := rfl
  rw [hdef, if_neg]
  rintro ⟨-, -, -, hbad⟩
  exact hbad h

/-! ## Claim theorems -/

/-- C2 counterexample: with `maxJournalEntries = 0` and a one-entry
journal, `compact` leaves the journal at length 1: `slice(-0)` is
`slice(0)`, the whole array, so the bound `journal.length ≤ N` fails at
`N = 0`. -/
theorem compact_zero_not_bounded :
    ¬ ((BeadsStore.compact dbOneEntry 0 7).journal.length ≤ 0) := by decide

/-- C2 (amended): for every document and every `N ≥ 1`, after
`compact({maxJournalEntries: N})` the journal has length at most `N` and
the retained entries are exactly the `N` most recent prior entries (the
suffix obtained by dropping the oldest), in their original order. -/
theorem compact_journal_bound (db : Db) (N now : Nat) (hN : 1 ≤ N) :
    (BeadsStore.compact db N now).journal = db.journal.drop (db.journal.length - N) ∧
    (BeadsStore.compact db N now).journal.length ≤ N :=
  ⟨compact_journal_drop db N now hN, compact_journal_length_le db N now hN⟩

/-- Witness for `compact_journal_bound` at a concrete one-entry document
and `N = 1`. -/
theorem compact_journal_bound_witness :
    1 ≤ 1 ∧
    ((BeadsStore.compact dbOneEntry 1 5).journal
        = dbOneEntry.journal.drop (dbOneEntry.journal.length - 1) ∧
      (BeadsStore.compact dbOneEntry 1 5).journal.length ≤ 1) :=
  ⟨by decide, compact_journal_bound dbOneEntry 1 5 (by decide)⟩

/-- C9: applying `compact` twice in a row with the same
`maxJournalEntries` and no intervening `set`/`append` yields the same
`namespaces` and the same `journal` as applying it once (only `updatedAt`
may differ). -/
theorem compact_idempotent (db : Db) (N t1 t2 : Nat) :
    (BeadsStore.compact (BeadsStore.compact db N t1) N t2).namespaces
        = (BeadsStore.compact db N t1).namespaces ∧
    (BeadsStore.compact (BeadsStore.compact db N t1) N t2).journal
        = (BeadsStore.compact db N t1).journal := by
  refine ⟨compact_namespaces _ N t2, ?_⟩
  rw [compact_journal_def (BeadsStore.compact db N t1) N t2]
  by_cases hN : N = 0
  · subst hN
    by_cases h : (BeadsStore.compact db 0 t1).journal.length > 0
    · rw [if_pos h]
      unfold sliceNeg
      rw [if_pos rfl]
    · rw [if_neg h]
  · have hle : (BeadsStore.compact db N t1).journal.length ≤ N :=
      compact_journal_length_le db N t1 (by omega)
    rw [if_neg (by omega)]

/-- C3 counterexample: `set` with the whitespace-only string `" "` (not
valid JSON) stores the empty string, not the raw string unchanged, because
`tryParseJson` returns `''` for any string whose trim is empty. -/
theorem set_whitespace_not_raw :
    BeadsStore.get (BeadsStore.set (createEmptyDb 0) "ns" "k" (.str " ")
        (.obj []) 0).1 "ns" "k" = .str "" ∧
    BeadsStore.get (BeadsStore.set (createEmptyDb 0) "ns" "k" (.str " ")
        (.obj []) 0).1 "ns" "k" ≠ .str " " := by
  refine ⟨rfl, ?_⟩
  intro h
  rw [show BeadsStore.get (BeadsStore.set (createEmptyDb 0) "ns" "k" (.str " ")
      (.obj []) 0).1 "ns" "k" = Json.str "" from rfl] at h
  injection h with h'
  exact absurd h' (by decide)

/-- C3 (amended): for every store, namespace, key, and string value `v`,
`set` stores `JSON.parse(v.trim())` when the trimmed value is valid JSON,
the raw string `v` when it is not and the trim is non-empty, and the empty
string when `v` is whitespace-only; a subsequent `get` returns exactly the
stored value.  In particular `set("stories","1-1",'{"title":"x"}')`
followed by `get("stories","1-1")` returns the decoded object
`{title:"x"}`, not the original string. -/
theorem set_get_decodes :
    (∀ (db : Db) (ns k v : String) (meta : Json) (now : Nat),
      BeadsStore.get (BeadsStore.set db ns k (.str v) meta now).1 ns k
          = (BeadsStore.set db ns k (.str v) meta now).2 ∧
      ((∃ j, Json.parse? (strTrim v) = some j ∧
          (BeadsStore.set db ns k (.str v) meta now).2 = j) ∨
       (Json.parse? (strTrim v) = none ∧ strTrim v ≠ "" ∧
          (BeadsStore.set db ns k (.str v) meta now).2 = .str v) ∨
       (strTrim v = "" ∧ (BeadsStore.set db ns k (.str v) meta now).2 = .str ""))) ∧
    BeadsStore.get (BeadsStore.set (createEmptyDb 0) "stories" "1-1"
        (.str "\x7b\"title\":\"x\"\x7d") (.obj []) 3).1 "stories" "1-1"
      = .obj [("title", .str "x")] := by
  constructor
  · intro db ns k v meta now
    constructor
    · simp only [BeadsStore.set, BeadsStore.get, assocGet_assocSet_self,
        Option.getD_some]
    · by_cases htrim : strTrim v = ""
      · exact Or.inr (Or.inr ⟨htrim, by simp [BeadsStore.set, tryParseJson, htrim]⟩)
      · cases hp : Json.parse? (strTrim v) with
        | some j =>
          exact Or.inl ⟨j, rfl, by simp [BeadsStore.set, tryParseJson, htrim, hp]⟩
        | none =>
          exact Or.inr (Or.inl ⟨rfl, htrim,
            by simp [BeadsStore.set, tryParseJson, htrim, hp]⟩)
  · rfl

/-- C1 counterexample: after a first successful acquisition (owner
`"7-0-3"`, TTL 100 ms), a second acquisition at 50 ms fails, but the
failure carries no owner at all: the result is the rethrown `EEXIST`
filesystem error, whose `code` and `path` fields do not contain the first
owner, so the claim that the failure reports the first acquisition's owner
is false. -/
theorem second_acquire_reports_no_owner :
    (acquireLock .absent "L" "plane" 100 7 0 3).1.reportedOwner = some "7-0-3" ∧
    (acquireLock (acquireLock .absent "L" "plane" 100 7 0 3).2
        "L" "plane" 100 8 50 4).1
      = .fsError "EEXIST" "L" ∧
    (acquireLock (acquireLock .absent "L" "plane" 100 7 0 3).2
        "L" "plane" 100 8 50 4).1.reportedOwner ≠ some "7-0-3" ∧
    strContainsSub "EEXIST" "7-0-3" = false ∧
    strContainsSub "L" "7-0-3" = false := by
  refine ⟨rfl, rfl, ?_, by decide, by decide⟩
  intro h
  exact Option.noConfusion h

/-- C1 (amended): a second `acquireLock` on the same path, with no
intervening release and the first record's `expiresAt` not yet in the
past, fails by rethrowing the `EEXIST` filesystem error — it returns no
owner (neither the new one nor the first one; the first owner remains
readable only from the unchanged lock file, which still holds the first
acquisition's record). -/
theorem second_acquire_fails (lockPath name : String)
    (ttlMs pid t0 rand pid2 t1 rand2 : Nat) (h : ¬ (t0 + ttlMs < t1)) :
    (acquireLock (acquireLock .absent lockPath name ttlMs pid t0 rand).2
        lockPath name ttlMs pid2 t1 rand2).1
      = .fsError "EEXIST" lockPath ∧
    (acquireLock (acquireLock .absent lockPath name ttlMs pid t0 rand).2
        lockPath name ttlMs pid2 t1 rand2).1.reportedOwner = none ∧
    (acquireLock (acquireLock .absent lockPath name ttlMs pid t0 rand).2
        lockPath name ttlMs pid2 t1 rand2).2
      = .record ⟨name, createOwnerId pid t0 rand, t0, some (t0 + ttlMs), ttlMs⟩ := by
  have hfirst : (acquireLock .absent lockPath name ttlMs pid t0 rand).2
      = .record ⟨name, createOwnerId pid t0 rand, t0, some (t0 + ttlMs), ttlMs⟩ := rfl
  rw [hfirst]
  simp only [acquireLock, if_neg h]
  exact ⟨trivial, rfl, trivial⟩

/-- Witness for `second_acquire_fails`: TTL 100 ms from time 0, second
attempt at 50 ms. -/
theorem second_acquire_fails_witness :
    ¬ (0 + 100 < 50) ∧
    ((acquireLock (acquireLock .absent "L" "plane" 100 7 0 3).2
        "L" "plane" 100 8 50 4).1 = .fsError "EEXIST" "L" ∧
      (acquireLock (acquireLock .absent "L" "plane" 100 7 0 3).2
          "L" "plane" 100 8 50 4).1.reportedOwner = none ∧
      (acquireLock (acquireLock .absent "L" "plane" 100 7 0 3).2
          "L" "plane" 100 8 50 4).2
        = .record ⟨"plane", createOwnerId 7 0 3, 0, some (0 + 100), 100⟩) :=
  ⟨by decide, second_acquire_fails "L" "plane" 100 7 0 3 8 50 4 (by decide)⟩

/-- C4: an `acquireLock` against a lock file whose record parses and whose
`expiresAt` is strictly in the past succeeds — the stale file is removed
and replaced by a fresh record — and returns the freshly generated owner,
which is distinct from the expired record's owner as long as the generator
honours its per-attempt uniqueness contract (the hypothesis `hfresh`). -/
theorem stale_lock_takeover (r : LockRecord) (lockPath name : String)
    (ttlMs pid nowMs rand e : Nat)
    (hexp : r.expiresAtMs = some e) (hpast : e < nowMs)
    (hfresh : createOwnerId pid nowMs rand ≠ r.owner) :
    (acquireLock (.record r) lockPath name ttlMs pid nowMs rand).1
        = .acquired (createOwnerId pid nowMs rand) lockPath name (nowMs + ttlMs) ∧
    (acquireLock (.record r) lockPath name ttlMs pid nowMs rand).2
        = .record ⟨name, createOwnerId pid nowMs rand, nowMs,
            some (nowMs + ttlMs), ttlMs⟩ ∧
    (acquireLock (.record r) lockPath name ttlMs pid nowMs rand).1.reportedOwner
        ≠ some r.owner := by
  simp only [acquireLock, hexp, if_pos hpast]
  refine ⟨trivial, trivial, ?_⟩
  intro hco
  simp only [AcquireResult.reportedOwner, Option.some.injEq] at hco
  exact hfresh hco

/-- Witness for `stale_lock_takeover`: record expired at 10 ms, attempt at
50 ms. -/
theorem stale_lock_takeover_witness :
    (staleRecord.expiresAtMs = some 10 ∧ 10 < 50 ∧
      createOwnerId 7 50 3 ≠ staleRecord.owner) ∧
    ((acquireLock (.record staleRecord) "L" "plane" 100 7 50 3).1
        = .acquired (createOwnerId 7 50 3) "L" "plane" (50 + 100) ∧
      (acquireLock (.record staleRecord) "L" "plane" 100 7 50 3).2
        = .record ⟨"plane", createOwnerId 7 50 3, 50, some (50 + 100), 100⟩ ∧
      (acquireLock (.record staleRecord) "L" "plane" 100 7 50 3).1.reportedOwner
        ≠ some staleRecord.owner) :=
  ⟨⟨rfl, by decide, by decide⟩,
    stale_lock_takeover staleRecord "L" "plane" 100 7 50 3 10 rfl (by decide) (by decide)⟩

/-- C5: `releaseLock` with `force = false` against an existing record
whose non-empty owner differs from the caller's non-empty owner returns
`released: false` (reason `owner-mismatch`, reporting the current owner)
and leaves the lock file in place; and `releaseLock` on a missing lock
file returns `released: false` (reason `missing`). -/
theorem release_owner_mismatch (r : LockRecord) (owner : String)
    (h1 : r.owner ≠ "") (h2 : owner ≠ "") (h3 : r.owner ≠ owner) :
    (releaseLock (.record r) owner false).1.isReleased = false ∧
    (releaseLock (.record r) owner false).1
        = .notReleasedOwnerMismatch r.owner ∧
    (releaseLock (.record r) owner false).2 = .record r ∧
    (releaseLock .absent owner false).1 = .notReleasedMissing ∧
    (releaseLock .absent owner false).1.isReleased = false := by
  have hdef : releaseLock (.record r) owner false
      = if false = false ∧ r.owner ≠ "" ∧ owner ≠ "" ∧ r.owner ≠ owner then
          (.notReleasedOwnerMismatch r.owner, .record r)
        else (.released, .absent) := rfl
  rw [hdef, if_pos ⟨rfl, h1, h2, h3⟩]
  exact ⟨rfl, rfl, rfl, rfl, rfl⟩

/-- Witness for `release_owner_mismatch`: the stale fixture record (owner
`"old-owner"`) released by caller owner `"other"`. -/
theorem release_owner_mismatch_witness :
    (staleRecord.owner ≠ "" ∧ "other" ≠ "" ∧ staleRecord.owner ≠ "other") ∧
    ((releaseLock (.record staleRecord) "other" false).1.isReleased = false ∧
      (releaseLock (.record staleRecord) "other" false).1
          = .notReleasedOwnerMismatch staleRecord.owner ∧
      (releaseLock (.record staleRecord) "other" false).2 = .record staleRecord ∧
      (releaseLock .absent "other" false).1 = .notReleasedMissing ∧
      (releaseLock .absent "other" false).1.isReleased = false) :=
  ⟨⟨by decide, by decide, by decide⟩,
    release_owner_mismatch staleRecord "other" (by decide) (by decide) (by decide)⟩

/-- C10: `releaseLock` with a falsy caller owner (`null`, `undefined`, or
`""`, all modelled as `""`) and `force = false` deletes the lock file and
returns `released: true` for every existing lock file — parsed record of
any owner, or corrupted — because the mismatch guard also requires the
caller's owner to be truthy; it therefore behaves exactly like a forced
release. -/
theorem release_empty_owner_like_force (st : LockFile) (h : st ≠ .absent) :
    (releaseLock st "" false).1 = .released ∧
    (releaseLock st "" false).2 = .absent ∧
    releaseLock st "" false = releaseLock st "" true := by
  cases st with
  | absent => exact absurd rfl h
  | corrupt => exact ⟨rfl, rfl, rfl⟩
  | record r =>
    have hdef : releaseLock (.record r) "" false
        = if false = false ∧ r.owner ≠ "" ∧ "" ≠ "" ∧ r.owner ≠ "" then
            (.notReleasedOwnerMismatch r.owner, .record r)
          else (.released, .absent) := rfl
    have hdefT : releaseLock (.record r) "" true
        = if true = false ∧ r.owner ≠ "" ∧ "" ≠ "" ∧ r.owner ≠ "" then
            (.notReleasedOwnerMismatch r.owner, .record r)
          else (.released, .absent) := rfl
    have hc : ¬ (false = false ∧ r.owner ≠ "" ∧ "" ≠ "" ∧ r.owner ≠ "") := by
      rintro ⟨-, -, hbad, -⟩
      exact hbad rfl
    have hcT : ¬ (true = false ∧ r.owner ≠ "" ∧ "" ≠ "" ∧ r.owner ≠ "") := by
      rintro ⟨hbad, -⟩
      exact Bool.noConfusion hbad
    rw [hdef, hdefT, if_neg hc, if_neg hcT]
    exact ⟨rfl, rfl, rfl⟩

/-- Witness for `release_empty_owner_like_force` at a concrete record with
a non-empty recorded owner. -/
theorem release_empty_owner_like_force_witness :
    (LockFile.record staleRecord ≠ .absent) ∧
    ((releaseLock (.record staleRecord) "" false).1 = .released ∧
      (releaseLock (.record staleRecord) "" false).2 = .absent ∧
      releaseLock (.record staleRecord) "" false
        = releaseLock (.record staleRecord) "" true) :=
  ⟨by decide, release_empty_owner_like_force (.record staleRecord) (by decide)⟩

/-- C6: in every execution of `landThePlane` in which the lock acquisition
succeeds (an `acquiredEvent` is in the execution's lock-event trace),
`releaseLock` is called on the same lock path with exactly the acquired
owner token and `force = false` — the trace is precisely the acquisition
followed by that release, on the normal path and on the path where
`store.init`/`store.compact` throws alike — and, because the release's
owner matches the freshly written record, the final lock file is removed:
a failed land attempt never terminates with the lock still held. -/
theorem land_always_releases (dbPath lockPath lockName : String)
    (ttlMs pid nowMs rand : Nat) (sys : SysState) (owner : String)
    (hacq : LockEvent.acquiredEvent owner
      ∈ (landThePlane dbPath lockPath lockName ttlMs pid nowMs rand sys).2.2) :
    (landThePlane dbPath lockPath lockName ttlMs pid nowMs rand sys).2.2
        = [.acquiredEvent owner, .releaseCalled lockPath owner false] ∧
    (landThePlane dbPath lockPath lockName ttlMs pid nowMs rand sys).2.1.lockFile
        = .absent := by
  rcases acquireLock_cases sys.lockFile lockPath lockName ttlMs pid nowMs rand
    with heq | heq
  · have howner : owner = createOwnerId pid nowMs rand := by
      simp only [landThePlane, heq, List.mem_cons, List.not_mem_nil, or_false] at hacq
      rcases hacq with h | h
      · exact LockEvent.acquiredEvent.inj h
      · exact absurd h (by simp)
    subst howner
    constructor
    · simp only [landThePlane, heq]
    · simp only [landThePlane, heq]
      exact congrArg Prod.snd
        (releaseLock_matching_owner _ (createOwnerId pid nowMs rand) rfl)
  · simp only [landThePlane, heq, List.not_mem_nil] at hacq

/-- Witness for `land_always_releases`: a run with an empty store path, so
that `store.init` throws `ConfigError` inside the `try` block — the trace
still ends with the release and the lock file ends up absent. -/
theorem land_always_releases_witness :
    (LockEvent.acquiredEvent (createOwnerId 7 0 3)
      ∈ (landThePlane "" "L" "plane" 100 7 0 3 ⟨.absent, .absent⟩).2.2) ∧
    ((landThePlane "" "L" "plane" 100 7 0 3 ⟨.absent, .absent⟩).2.2
        = [.acquiredEvent (createOwnerId 7 0 3),
           .releaseCalled "L" (createOwnerId 7 0 3) false] ∧
      (landThePlane "" "L" "plane" 100 7 0 3 ⟨.absent, .absent⟩).2.1.lockFile
        = .absent) :=
  ⟨by decide,
    land_always_releases "" "L" "plane" 100 7 0 3 ⟨.absent, .absent⟩
      (createOwnerId 7 0 3) (by decide)⟩

/-- C7 counterexample: an inbound job matched to this Worker with
`next_role = "dev1"` and `next_step = "dev-story"` but no
`next_agent_name` produces no outbound message at all — the next-hop send
is guarded by `nextRole && nextStep && job.next_agent_name`, so the claim
that such a job always yields exactly one outbound job message is false. -/
theorem relay_hop_requires_next_agent :
    jobHopNoAgent.to_role = "validator" ∧
    jobHopNoAgent.next_role = "dev1" ∧
    jobHopNoAgent.next_step = "dev-story" ∧
    handleMessage "validator" "val-1" msgHopNoAgent (.exit 0 "p") = [] :=
  ⟨rfl, rfl, rfl, rfl⟩

/-- C7 (amended): for every inbound message whose decoded Job matches the
Worker's role (and agent name, when one is specified) and sets
`next_role = "dev1"`, `next_step = "dev-story"`, **and a non-empty
`next_agent_name`**, the Worker sends exactly one outbound job message,
whose decoded job has `to_role = "dev1"` and `thread_id` equal to the
inbound job's `thread_id`, or to its `issue_id` when the inbound
`thread_id` is absent. -/
theorem relay_hop_construction (role agentName : String) (msg : InMessage)
    (job : Job) (outcome : RunnerOutcome)
    (hsubj : subjectMarksJob msg.subject = true)
    (hjob : msg.jobInBody = some job)
    (hrole : job.to_role = role)
    (hagent : job.to_agent_name = "" ∨ job.to_agent_name = agentName)
    (hnr : job.next_role = "dev1")
    (hns : job.next_step = "dev-story")
    (hna : job.next_agent_name ≠ "") :
    ∃ nj : Job,
      handleMessage role agentName msg outcome
        = [{ recipients := [job.next_agent_name],
             subject := "BMAD JOB: " ++ job.next_step ++ " " ++ job.issue_id,
             body := .jobBody nj,
             thread_id :=
               if job.thread_id ≠ "" then job.thread_id else job.issue_id }] ∧
      nj.to_role = "dev1" ∧
      nj.thread_id = (if job.thread_id ≠ "" then job.thread_id else job.issue_id) := by
  refine ⟨{ issue_id := job.issue_id, step := job.next_step,
            thread_id := if job.thread_id ≠ "" then job.thread_id else job.issue_id,
            to_role := job.next_role, to_agent_name := job.next_agent_name,
            next_step := job.next_next_step, next_role := job.next_next_role,
            next_agent_name := job.next_next_agent_name,
            next_next_step := "", next_next_role := "", next_next_agent_name := "",
            done_to_role := job.done_to_role,
            done_to_agent_name := job.done_to_agent_name }, ?_, hnr, rfl⟩
  have hcond : job.next_role ≠ "" ∧ job.next_step ≠ "" ∧ job.next_agent_name ≠ "" :=
    ⟨by rw [hnr]; decide, by rw [hns]; decide, hna⟩
  rcases hagent with ha | ha <;>
    simp [handleMessage, hjob, hsubj, hrole, ha, hcond]

/-- Witness for `relay_hop_construction` on the concrete fixture
message. -/
theorem relay_hop_construction_witness :
    (subjectMarksJob msgHop.subject = true ∧
      msgHop.jobInBody = some jobHop ∧
      jobHop.to_role = "validator" ∧
      (jobHop.to_agent_name = "" ∨ jobHop.to_agent_name = "val-1") ∧
      jobHop.next_role = "dev1" ∧ jobHop.next_step = "dev-story" ∧
      jobHop.next_agent_name ≠ "") ∧
    (∃ nj : Job,
      handleMessage "validator" "val-1" msgHop (.exit 0 "p")
        = [{ recipients := [jobHop.next_agent_name],
             subject := "BMAD JOB: " ++ jobHop.next_step ++ " " ++ jobHop.issue_id,
             body := .jobBody nj,
             thread_id :=
               if jobHop.thread_id ≠ "" then jobHop.thread_id else jobHop.issue_id }] ∧
      nj.to_role = "dev1" ∧
      nj.thread_id
        = (if jobHop.thread_id ≠ "" then jobHop.thread_id else jobHop.issue_id)) :=
  ⟨⟨by decide, rfl, rfl, Or.inl rfl, rfl, rfl, by decide⟩,
    relay_hop_construction "validator" "val-1" msgHop jobHop (.exit 0 "p")
      (by decide) rfl rfl (Or.inl rfl) rfl rfl (by decide)⟩

/-- C8 counterexample: for a matched job with a fully specified next hop,
the outbound message is byte-identical whether the runner throws, exits 7,
or exits 0 — the next-hop Job carries no exit-code field at all, so the
claim that the runner's exit code is attached as metadata to that outbound
message is false (only the Done notice carries it). -/
theorem next_hop_lacks_exit_code :
    handleMessage "validator" "val-1" msgHop .thrown
        = handleMessage "validator" "val-1" msgHop (.exit 0 "pf") ∧
    handleMessage "validator" "val-1" msgHop (.exit 7 "pf")
        = handleMessage "validator" "val-1" msgHop (.exit 0 "pf") ∧
    (handleMessage "validator" "val-1" msgHop .thrown).length = 1 :=
  ⟨rfl, rfl, rfl⟩

/-- C8 (amended): a Runner invocation that throws or returns any exit code
never stops the relay: for every matched job the daemon performs the same
next pipeline action as on success — when a next hop is fully specified it
sends exactly one next-hop Job, identical to the success-case message (so
carrying no exit-code metadata); otherwise, when a completion target is
specified, it sends the Done notice, and the runner's exit code (1 for a
throw) is attached to that Done notice. -/
theorem runner_failure_continues (role agentName : String) (msg : InMessage)
    (job : Job) (outcome : RunnerOutcome)
    (hsubj : subjectMarksJob msg.subject = true)
    (hjob : msg.jobInBody = some job)
    (hrole : job.to_role = role)
    (hagent : job.to_agent_name = "" ∨ job.to_agent_name = agentName) :
    (job.next_role ≠ "" ∧ job.next_step ≠ "" ∧ job.next_agent_name ≠ "" →
      handleMessage role agentName msg outcome
          = handleMessage role agentName msg (.exit 0 "ok") ∧
      (handleMessage role agentName msg outcome).length = 1) ∧
    (¬ (job.next_role ≠ "" ∧ job.next_step ≠ "" ∧ job.next_agent_name ≠ "") →
      job.done_to_agent_name ≠ "" →
      handleMessage role agentName msg outcome
        = [{ recipients := [job.done_to_agent_name],
             subject := "BMAD DONE: " ++ job.step ++ " " ++ job.issue_id,
             body := .doneBody job.step job.issue_id role (runnerExitCode outcome)
               (runnerPromptFile outcome),
             thread_id :=
               if job.thread_id ≠ "" then job.thread_id else job.issue_id }]) := by
  constructor
  · intro hcond
    rcases hagent with ha | ha <;>
      simp [handleMessage, hjob, hsubj, hrole, ha, hcond]
  · intro hcond hdone
    rcases hagent with ha | ha <;>
      simp [handleMessage, hjob, hsubj, hrole, ha, hcond, hdone]

/-- Witness for `runner_failure_continues`: the last-stage fixture job
(no next hop, completion target `sm1-agent`) with a throwing runner — the
Done notice is still sent and carries exit code 1. -/
theorem runner_failure_continues_witness :
    (subjectMarksJob msgDone.subject = true ∧
      msgDone.jobInBody = some jobDone ∧
      jobDone.to_role = "reviewer" ∧
      (jobDone.to_agent_name = "" ∨ jobDone.to_agent_name = "rev-1")) ∧
    ((jobDone.next_role ≠ "" ∧ jobDone.next_step ≠ "" ∧
        jobDone.next_agent_name ≠ "" →
      handleMessage "reviewer" "rev-1" msgDone .thrown
          = handleMessage "reviewer" "rev-1" msgDone (.exit 0 "ok") ∧
      (handleMessage "reviewer" "rev-1" msgDone .thrown).length = 1) ∧
    (¬ (jobDone.next_role ≠ "" ∧ jobDone.next_step ≠ "" ∧
        jobDone.next_agent_name ≠ "") →
      jobDone.done_to_agent_name ≠ "" →
      handleMessage "reviewer" "rev-1" msgDone .thrown
        = [{ recipients := [jobDone.done_to_agent_name],
             subject := "BMAD DONE: " ++ jobDone.step ++ " " ++ jobDone.issue_id,
             body := .doneBody jobDone.step jobDone.issue_id "reviewer"
               (runnerExitCode .thrown) (runnerPromptFile .thrown),
             thread_id :=
               if jobDone.thread_id ≠ "" then jobDone.thread_id
               else jobDone.issue_id }])) :=
  ⟨⟨by decide, rfl, rfl, Or.inl rfl⟩,
    runner_failure_continues "reviewer" "rev-1" msgDone jobDone .thrown
      (by decide) rfl rfl (Or.inl rfl)⟩

end Beads
